import Mathlib

/-!
# Shallow embedding of the bark Liquid payment bridge

This file embeds, in Lean 4, the client-side Liquid payment engine
(`src/bark/src/liquid/pay.rs`: `pay_liquid_address`, `check_liquid_payment`,
`process_liquid_revocation`) and the server-side bridge
(`src/server/src/liquid/mod.rs`: `initiate_liquid_payment`,
`check_liquid_payment`, `store_liquid_payment`).

Modelling conventions:
* Monetary amounts, block heights, VTXO ids, public keys and payment hashes
  are `Nat`; balance deltas are `Int`.
* The sealed cryptographic library (MuSig2 nonces, Arkoor package builders,
  VTXO validation) and the remote endpoints (server RPC, sidechain RPC,
  chain oracle) are opaque collaborators: their outcomes are supplied by an
  environment record, one field per call site, in source order.
* Each embedded function returns the list of externally observable effects
  it performs, in the exact order the source performs them, together with
  its `Except` outcome.  State is obtained by folding `applyEffect` over the
  trace; in every embedded function all state reads precede all writes, so
  this is faithful to the sequential source.
-/

namespace Bark

/-- VTXO spending policy (`ark::VtxoPolicy`).  Only the `ServerHtlcSend`
variant matters to this code; every other variant is collapsed into
`pubkey`/`other`. -/
inductive VtxoPolicy where
  | pubkey (pk : Nat)
  | serverHtlcSend (userPubkey : Nat) (paymentHash : Nat) (htlcExpiry : Nat)
  | other
  deriving DecidableEq, Repr

/-- `VtxoPolicy::as_server_htlc_send`: the `ServerHtlcSend` payload, if any. -/
def VtxoPolicy.asServerHtlcSend : VtxoPolicy → Option (Nat × Nat × Nat)
  | .serverHtlcSend pk h e => some (pk, h, e)
  | _ => none

/-- Whether a policy is the `ServerHtlcSend` variant. -/
def VtxoPolicy.isServerHtlcSend : VtxoPolicy → Bool
  | .serverHtlcSend _ _ _ => true
  | _ => false

/-- An Ark VTXO: identifier, amount in sats, spending policy and
expiry block height (`vtxo.spec().expiry_height`). -/
structure Vtxo where
  id : Nat
  amount : Nat
  policy : VtxoPolicy
  expiryHeight : Nat
  deriving DecidableEq, Repr

/-- Sum of the amounts of a list of VTXOs. -/
def sumAmounts (vs : List Vtxo) : Nat :=
  (vs.map Vtxo.amount).sum

/-- Final status written into a movement ledger entry
(`MovementStatus::{Finished, Failed}`). -/
inductive MovementStatus where
  | finished
  | failed
  deriving DecidableEq, Repr

/-- Client-side lifecycle state of a VTXO in the wallet database. -/
inductive VtxoState where
  | spendable
  | locked
  | spent
  deriving DecidableEq, Repr

/-- The persistent `bark_liquid_send` row, enriched (as in
`persist::models::LiquidSend`) with the HTLC VTXOs themselves. -/
structure LiquidSendRec where
  paymentHash : Nat
  liquidAddress : String
  amount : Nat
  htlcVtxos : List Vtxo
  movementId : Nat
  confirmed : Bool
  finished : Bool
  deriving DecidableEq, Repr

/-- The slice of a movement ledger entry this code writes: the
effective balance delta and the final status (none while open). -/
structure MovementRec where
  effectiveDelta : Option Int
  status : Option MovementStatus
  deriving DecidableEq, Repr

/-- Externally observable effects of the client engine, one constructor per
call site in `pay.rs`, carrying the data the call writes. -/
inductive Effect where
  /-- `derive_store_next_keypair` -/
  | deriveKeypair
  /-- `request_liquid_pay_htlc_cosign` RPC -/
  | rpcCosign
  /-- `initiate_liquid_payment` RPC, with the payment hash sent -/
  | rpcInitiate (hash : Nat)
  /-- `check_liquid_payment` RPC, with the hash sent (the policy's hash) -/
  | rpcCheck (hash : Nat)
  /-- `request_liquid_pay_htlc_revocation` RPC -/
  | rpcRevoke
  /-- `movements.new_movement` -/
  | newMovement (id : Nat)
  /-- `movements.update_movement`; `eff` is the effective-balance field of
  the update when the update sets one -/
  | updateMovement (id : Nat) (eff : Option Int)
  /-- `store_locked_vtxos` -/
  | storeLocked (ids : List Nat) (movementId : Nat)
  /-- `mark_vtxos_as_spent` -/
  | markSpent (ids : List Nat)
  /-- `store_spendable_vtxos` -/
  | storeSpendable (ids : List Nat)
  /-- `db.store_new_pending_liquid_send` -/
  | storeLiquidSend (rec : LiquidSendRec)
  /-- `db.finish_liquid_send` -/
  | finishLiquidSend (hash : Nat)
  /-- `db.remove_liquid_send` -/
  | removeLiquidSend (hash : Nat)
  /-- `movements.finish_movement` -/
  | finishMovement (id : Nat) (status : MovementStatus)
  /-- `exit.mark_vtxos_for_exit` -/
  | markForExit (ids : List Nat)
  deriving DecidableEq, Repr

/-- Client wallet state touched by the Liquid payment engine. -/
structure ClientState where
  vtxoStates : Nat → Option VtxoState
  liquidSends : Nat → Option LiquidSendRec
  movements : Nat → Option MovementRec
  exitMarked : Nat → Bool
  nextMovementId : Nat
  keypairCounter : Nat

/-- How each effect updates the client state. -/
def applyEffect (st : ClientState) : Effect → ClientState
  | .deriveKeypair => { st with keypairCounter := st.keypairCounter + 1 }
  | .rpcCosign => st
  | .rpcInitiate _ => st
  | .rpcCheck _ => st
  | .rpcRevoke => st
  | .newMovement i =>
      { st with
        nextMovementId := st.nextMovementId + 1,
        movements := fun j =>
          if j = i then some ⟨none, none⟩ else st.movements j }
  | .updateMovement i eff =>
      { st with movements := fun j =>
          if j = i then
            (st.movements j).map (fun m =>
              { m with effectiveDelta := eff.orElse (fun _ => m.effectiveDelta) })
          else st.movements j }
  | .storeLocked ids _ =>
      { st with vtxoStates := fun j =>
          if ids.contains j then some .locked else st.vtxoStates j }
  | .markSpent ids =>
      { st with vtxoStates := fun j =>
          if ids.contains j then some .spent else st.vtxoStates j }
  | .storeSpendable ids =>
      { st with vtxoStates := fun j =>
          if ids.contains j then some .spendable else st.vtxoStates j }
  | .storeLiquidSend r =>
      { st with liquidSends := fun h =>
          if h = r.paymentHash then some r else st.liquidSends h }
  | .finishLiquidSend hs =>
      { st with liquidSends := fun h =>
          if h = hs then
            (st.liquidSends h).map (fun r => { r with confirmed := true, finished := true })
          else st.liquidSends h }
  | .removeLiquidSend hs =>
      { st with liquidSends := fun h =>
          if h = hs then none else st.liquidSends h }
  | .finishMovement i s =>
      { st with movements := fun j =>
          if j = i then (st.movements j).map (fun m => { m with status := some s })
          else st.movements j }
  | .markForExit ids =>
      { st with exitMarked := fun j =>
          if ids.contains j then true else st.exitMarked j }

/-- Fold a trace of effects over the client state. -/
def applyEffects (st : ClientState) (tr : List Effect) : ClientState :=
  tr.foldl applyEffect st

/-- Errors surfaced by the client engine (each `bail!`/`ensure!`/`?` site). -/
inductive PayErr where
  | noServer
  | dustAmount
  | duplicatePayment
  | insufficientFunds
  | rpcError
  | invalidPolicy
  | cosignMismatch
  | buildFailed
  | invalidVtxo
  | anchorNotFound
  | invalidChange
  | buildVtxosFailed
  | noVtxo
  | notHtlcSend
  deriving DecidableEq, Repr

/-- `bitcoin_ext::P2TR_DUST`: dust threshold for P2TR outputs, in sats. -/
def P2TR_DUST : Nat := 330

/-- Wire payment status (`protos::PaymentStatus`). -/
inductive PaymentStatus where
  | pending
  | complete
  | failed
  deriving DecidableEq, Repr

/-- Environment for one `pay_liquid_address` run: the outcomes of the opaque
collaborator calls, one field per call site in source order.  RPC transport
failures and response-decoding failures are collapsed into a single
availability flag per round-trip, since both merely propagate an error. -/
structure PayEnv where
  /-- `require_server` succeeds -/
  serverConfigured : Bool
  /-- `select_vtxos_to_cover(amount)`: the selected inputs, or `none` when
  no suitable set covers the amount -/
  selected : Option (List Vtxo)
  /-- cosign RPC round-trip, signature decoding and policy deserialization -/
  cosignRpcOk : Bool
  /-- `VtxoPolicy::deserialize(&resp.policy)` -/
  respPolicy : VtxoPolicy
  /-- `ArkoorPackageBuilder::new` -/
  builderOk : Bool
  /-- `builder.verify_cosign_response` -/
  cosignValid : Bool
  /-- `builder.build_vtxos` -/
  buildVtxosOk : Bool
  /-- HTLC VTXOs produced by `build_vtxos` -/
  htlcVtxos : List Vtxo
  /-- change VTXO produced by `build_vtxos` -/
  changeVtxo : Option Vtxo
  /-- `validate_vtxo` over every produced HTLC VTXO -/
  htlcValidateOk : Bool
  /-- `chain.get_tx(change anchor)` found the anchor transaction -/
  changeAnchorFound : Bool
  /-- `change.validate(&tx)` -/
  changeValid : Bool
  /-- `initiate_liquid_payment` RPC round-trip -/
  initiateOk : Bool

/-- `Wallet::pay_liquid_address(liquid_address, amount, payment_hash)`
from `src/bark/src/liquid/pay.rs`, as a trace of effects plus outcome.
The derived change keypair's public key is modelled as the current
`keypairCounter`.  The payment-hash equality check against the returned
policy is commented out in the source and is therefore absent here. -/
def pay_liquid_address (st : ClientState) (env : PayEnv) (liquidAddress : String)
    (amount : Nat) (paymentHash : Nat) : List Effect × Except PayErr Unit :=
  if ¬ env.serverConfigured then ([], .error .noServer) else
  if amount < P2TR_DUST then ([], .error .dustAmount) else
  if (st.liquidSends paymentHash).isSome then ([], .error .duplicatePayment) else
  let changePubkey := st.keypairCounter
  let tr0 : List Effect := [.deriveKeypair]
  match env.selected with
  | none => (tr0, .error .insufficientFunds)
  | some inputs =>
    let inputIds := inputs.map Vtxo.id
    let tr1 := tr0 ++ [.rpcCosign]
    if ¬ env.cosignRpcOk then (tr1, .error .rpcError) else
    match env.respPolicy with
    | .serverHtlcSend userPubkey _policyHash _htlcExpiry =>
      if userPubkey ≠ changePubkey then (tr1, .error .invalidPolicy) else
      -- `ensure!(policy.payment_hash == payment_hash, ...)` is commented out
      -- in the source; no comparison with `_policyHash` happens here.
      if ¬ env.builderOk then (tr1, .error .buildFailed) else
      if ¬ env.cosignValid then (tr1, .error .cosignMismatch) else
      if ¬ env.buildVtxosOk then (tr1, .error .buildVtxosFailed) else
      let htlcs := env.htlcVtxos
      let htlcIds := htlcs.map Vtxo.id
      if ¬ env.htlcValidateOk then (tr1, .error .invalidVtxo) else
      let effectiveBalance := sumAmounts htlcs
      let mid := st.nextMovementId
      let tr2 := tr1 ++
        [.newMovement mid,
         .updateMovement mid (some (-(effectiveBalance : Int))),
         .storeLocked htlcIds mid,
         .markSpent inputIds]
      let changeStep : Except PayErr (List Effect) :=
        match env.changeVtxo with
        | some change =>
          if ¬ env.changeAnchorFound then .error .anchorNotFound else
          if ¬ env.changeValid then .error .invalidChange else
          .ok (tr2 ++ [.storeSpendable [change.id]])
        | none => .ok tr2
      match changeStep with
      | .error e => (tr2, .error e)
      | .ok tr3 =>
        let rec_ : LiquidSendRec :=
          { paymentHash := paymentHash, liquidAddress := liquidAddress,
            amount := amount, htlcVtxos := htlcs, movementId := mid,
            confirmed := false, finished := false }
        let tr4 := tr3 ++
          [.updateMovement mid none,
           .storeLiquidSend rec_,
           .rpcInitiate paymentHash]
        if ¬ env.initiateOk then (tr4, .error .rpcError) else
        (tr4, .ok ())
    | _ => (tr1, .error .invalidPolicy)

/-- Environment for one `process_liquid_revocation` run. -/
structure RevEnv where
  /-- `require_server` succeeds -/
  serverConfigured : Bool
  /-- `ArkoorPackageBuilder::new_htlc_revocation` -/
  buildOk : Bool
  /-- revocation RPC round-trip and response decoding -/
  rpcOk : Bool
  /-- `revocation.verify_cosign_response` -/
  cosignValid : Bool
  /-- `revocation.build_vtxos` -/
  buildVtxosOk : Bool
  /-- revoked VTXOs produced by `build_vtxos` -/
  revokedVtxos : List Vtxo

/-- `Wallet::process_liquid_revocation(payment)` from
`src/bark/src/liquid/pay.rs`. -/
def process_liquid_revocation (env : RevEnv) (payment : LiquidSendRec) :
    List Effect × Except PayErr Unit :=
  if ¬ env.serverConfigured then ([], .error .noServer) else
  let htlcIds := payment.htlcVtxos.map Vtxo.id
  if ¬ env.buildOk then ([], .error .buildFailed) else
  let tr1 : List Effect := [.rpcRevoke]
  if ¬ env.rpcOk then (tr1, .error .rpcError) else
  if ¬ env.cosignValid then (tr1, .error .cosignMismatch) else
  if ¬ env.buildVtxosOk then (tr1, .error .buildVtxosFailed) else
  let vtxos := env.revokedVtxos
  let revoked := sumAmounts vtxos
  (tr1 ++
    [.updateMovement payment.movementId
       (some (-(payment.amount : Int) + (revoked : Int))),
     .storeSpendable (vtxos.map Vtxo.id),
     .markSpent htlcIds,
     .finishMovement payment.movementId .failed,
     .removeLiquidSend payment.paymentHash],
   .ok ())

/-- Minimum expiry height over a list of VTXOs
(`htlc_vtxos.iter().map(|v| v.vtxo.spec().expiry_height).min()`);
0 on the empty list, which the call sites never pass. -/
def minExpiry : List Vtxo → Nat
  | [] => 0
  | v :: vs => vs.foldl (fun a w => min a w.expiryHeight) v.expiryHeight

/-- Environment for one client `check_liquid_payment` run. -/
structure CheckEnv where
  /-- `chain.tip()` -/
  tip : Nat
  /-- `require_server` succeeds -/
  serverConfigured : Bool
  /-- check RPC round-trip and status decoding -/
  checkRpcOk : Bool
  /-- the status field of the server's `LiquidPaymentResult` -/
  serverStatus : PaymentStatus
  /-- `config().vtxo_refresh_expiry_threshold` -/
  refreshThreshold : Nat
  /-- environment of the nested revocation attempt -/
  rev : RevEnv

/-- The `should_revoke` branch of `check_liquid_payment`: attempt the
revocation; if it fails and some HTLC VTXO is close to expiry
(`tip > min_expiry.saturating_sub(vtxo_refresh_expiry_threshold)`, with
`Nat` subtraction playing `saturating_sub`), mark all HTLC VTXOs for
unilateral exit and finalize the movement as failed.  The
`finish_liquid_send` call in the exit branch is commented out in the
source, so the `LiquidSend` row is left untouched there. -/
def check_revoke_branch (env : CheckEnv) (payment : LiquidSendRec)
    (tip : Nat) (tr1 : List Effect) : List Effect × Except PayErr (Option Nat) :=
  let (rtr, rout) := process_liquid_revocation env.rev payment
  match rout with
  | .ok _ => (tr1 ++ rtr, .ok none)
  | .error _ =>
    let minExp := minExpiry payment.htlcVtxos
    if tip > minExp - env.refreshThreshold then
      let vtxoIds := payment.htlcVtxos.map Vtxo.id
      let exited := sumAmounts payment.htlcVtxos
      (tr1 ++ rtr ++
        [.markForExit vtxoIds,
         .updateMovement payment.movementId
           (some (-(payment.amount : Int) + (exited : Int))),
         .finishMovement payment.movementId .failed],
       .ok none)
    else
      (tr1 ++ rtr, .ok none)

/-- `Wallet::check_liquid_payment(payment)` from
`src/bark/src/liquid/pay.rs`.  Returns `Option Nat` as the (never
produced) preimage.  Note the check RPC sends the hash read from the
HTLC policy, not the record's hash, exactly as the source does; the
equality check between the two is commented out in the source. -/
def check_liquid_payment (env : CheckEnv) (payment : LiquidSendRec) :
    List Effect × Except PayErr (Option Nat) :=
  let tip := env.tip
  match payment.htlcVtxos.head? with
  | none => ([], .error .noVtxo)
  | some v0 =>
    match v0.policy.asServerHtlcSend with
    | none => ([], .error .notHtlcSend)
    | some (_userPubkey, policyHash, htlcExpiry) =>
      if ¬ env.serverConfigured then ([], .error .noServer) else
      let tr1 : List Effect := [.rpcCheck policyHash]
      if ¬ env.checkRpcOk then (tr1, .error .rpcError) else
      let htlcIds := payment.htlcVtxos.map Vtxo.id
      match env.serverStatus with
      | .complete =>
        (tr1 ++
          [.finishLiquidSend payment.paymentHash,
           .markSpent htlcIds,
           .finishMovement payment.movementId .finished],
         .ok none)
      | .failed =>
        check_revoke_branch env payment tip tr1
      | .pending =>
        if tip > htlcExpiry then
          check_revoke_branch env payment tip tr1
        else
          (tr1, .ok none)

/-- Run `pay_liquid_address` and fold its effects over the state. -/
def runPay (st : ClientState) (env : PayEnv) (liquidAddress : String)
    (amount : Nat) (paymentHash : Nat) :
    ClientState × List Effect × Except PayErr Unit :=
  let (tr, out) := pay_liquid_address st env liquidAddress amount paymentHash
  (applyEffects st tr, tr, out)

/-- Run `check_liquid_payment` and fold its effects over the state. -/
def runCheck (st : ClientState) (env : CheckEnv) (payment : LiquidSendRec) :
    ClientState × List Effect × Except PayErr (Option Nat) :=
  let (tr, out) := check_liquid_payment env payment
  (applyEffects st tr, tr, out)

/-- Run `process_liquid_revocation` and fold its effects over the state. -/
def runRevocation (st : ClientState) (env : RevEnv) (payment : LiquidSendRec) :
    ClientState × List Effect × Except PayErr Unit :=
  let (tr, out) := process_liquid_revocation env payment
  (applyEffects st tr, tr, out)

/-! ## Server bridge (`src/server/src/liquid/mod.rs`) -/

/-- Server-side `LiquidPaymentStatus`. -/
inductive LiquidPaymentStatus where
  | pending
  | sent
  | confirmed
  | failed
  deriving DecidableEq, Repr

/-- Server-side in-memory `LiquidPayment` record. -/
structure LiquidPayment where
  liquidAddress : String
  amount : Nat
  paymentHash : Nat
  htlcVtxoIds : List Nat
  status : LiquidPaymentStatus
  liquidTxid : Option String
  deriving DecidableEq, Repr

/-- A VTXO as the server database sees it: the VTXO plus its
spendability flag (`htlc_vtxo.is_spendable()`). -/
structure ServerVtxo where
  vtxo : Vtxo
  spendable : Bool
  deriving DecidableEq, Repr

/-- Server state touched by the Liquid bridge: the in-memory
`liquid_payments` map keyed by payment hash, the VTXO database, and
whether an Elements daemon is configured. -/
structure ServerState where
  liquidPayments : Nat → Option LiquidPayment
  vtxos : Nat → Option ServerVtxo
  elementsdConfigured : Bool

/-- Externally observable server effects: the only mutation this code
performs is `store_liquid_payment`, which inserts the record into the
map under its payment hash. -/
inductive ServerEffect where
  | storePayment (p : LiquidPayment)
  deriving DecidableEq, Repr

/-- `Server::store_liquid_payment`: insert under the record's hash. -/
def applyServerEffect (st : ServerState) : ServerEffect → ServerState
  | .storePayment p =>
      { st with liquidPayments := fun h =>
          if h = p.paymentHash then some p else st.liquidPayments h }

/-- Fold a trace of server effects over the server state. -/
def applyServerEffects (st : ServerState) (tr : List ServerEffect) : ServerState :=
  tr.foldl applyServerEffect st

/-- Errors surfaced by the server bridge entry points. -/
inductive SrvErr where
  | noElements
  | unknownVtxo
  | vtxoSpent
  | notHtlcSend
  | notFound
  deriving DecidableEq, Repr

/-- Wire `protos::LiquidPaymentResult`. -/
structure LiquidPaymentResult where
  progressMessage : String
  status : PaymentStatus
  paymentHash : Nat
  deriving DecidableEq, Repr

/-- `db.get_vtxos_by_id`: all the requested VTXOs, or `none` when one of
the ids is unknown. -/
def getVtxosById (st : ServerState) : List Nat → Option (List ServerVtxo)
  | [] => some []
  | i :: is =>
    match st.vtxos i, getVtxosById st is with
    | some v, some vs => some (v :: vs)
    | _, _ => none

/-- The per-VTXO validation loop of `initiate_liquid_payment`: reject a
non-spendable input (`badarg!("input vtxo is already spent")`), then
require a `ServerHtlcSend` policy.  The payment-hash comparison against
the policy is commented out in the source and absent here. -/
def checkHtlcVtxos : List ServerVtxo → Except SrvErr Unit
  | [] => .ok ()
  | v :: vs =>
    if ¬ v.spendable then .error .vtxoSpent else
    match v.vtxo.policy.asServerHtlcSend with
    | none => .error .notHtlcSend
    | some _ => checkHtlcVtxos vs

/-- `Server::initiate_liquid_payment(liquid_address, amount, payment_hash,
htlc_vtxo_ids, wait)`.  `sendResult` is the outcome of the sidechain
`sendtoaddress` RPC (its txid on success). -/
def initiate_liquid_payment (st : ServerState) (sendResult : Except String String)
    (liquidAddress : String) (amount : Nat) (paymentHash : Nat)
    (htlcVtxoIds : List Nat) (_wait : Bool) :
    List ServerEffect × Except SrvErr LiquidPaymentResult :=
  if ¬ st.elementsdConfigured then ([], .error .noElements) else
  match getVtxosById st htlcVtxoIds with
  | none => ([], .error .unknownVtxo)
  | some hvs =>
    match checkHtlcVtxos hvs with
    | .error e => ([], .error e)
    | .ok _ =>
      let p : LiquidPayment :=
        { liquidAddress := liquidAddress, amount := amount,
          paymentHash := paymentHash, htlcVtxoIds := htlcVtxoIds,
          status := .pending, liquidTxid := none }
      match sendResult with
      | .ok txid =>
        ([.storePayment p,
          .storePayment { p with status := .sent, liquidTxid := some txid }],
         .ok { progressMessage := "Payment sent to liquid address. txid: " ++ txid,
               status := .pending, paymentHash := paymentHash })
      | .error e =>
        ([.storePayment p,
          .storePayment { p with status := .failed }],
         .ok { progressMessage := "Payment failed: " ++ e,
               status := .failed, paymentHash := paymentHash })

/-- `Server::check_liquid_payment(payment_hash, wait)`.  `getTx` is the
outcome of the sidechain `gettransaction` RPC, giving the confirmation
count; it is consulted only on a `Sent` payment with a txid and a
configured Elements daemon. -/
def server_check_liquid_payment (st : ServerState) (getTx : Except String Nat)
    (paymentHash : Nat) : List ServerEffect × Except SrvErr LiquidPaymentResult :=
  match st.liquidPayments paymentHash with
  | none => ([], .error .notFound)
  | some payment =>
    match payment.status with
    | .pending =>
      ([], .ok { progressMessage := "Payment is pending",
                 status := .pending, paymentHash := paymentHash })
    | .sent =>
      if st.elementsdConfigured then
        match payment.liquidTxid with
        | some _txid =>
          match getTx with
          | .ok confs =>
            if confs ≥ 1 then
              ([.storePayment { payment with status := .confirmed }],
               .ok { progressMessage := "Payment confirmed",
                     status := .complete, paymentHash := paymentHash })
            else
              ([], .ok { progressMessage := "Payment sent, waiting for confirmation",
                         status := .pending, paymentHash := paymentHash })
          | .error e =>
            ([], .ok { progressMessage := "Error checking transaction: " ++ e,
                       status := .pending, paymentHash := paymentHash })
        | none =>
          ([], .ok { progressMessage := "Payment sent but no txid available",
                     status := .pending, paymentHash := paymentHash })
      else
        ([], .ok { progressMessage := "No Elements daemon available",
                   status := .failed, paymentHash := paymentHash })
    | .confirmed =>
      ([], .ok { progressMessage := "Payment confirmed",
                 status := .complete, paymentHash := paymentHash })
    | .failed =>
      ([], .ok { progressMessage := "Payment failed",
                 status := .failed, paymentHash := paymentHash })

/-- One server operation touching the `liquid_payments` map, with the
outcome of its sidechain RPC call bundled in.
`cosign_liquid_pay_htlc` never writes the map, so it is a single
constructor with no payload here. -/
inductive ServerOp where
  | initiate (sendResult : Except String String) (liquidAddress : String)
      (amount : Nat) (paymentHash : Nat) (htlcVtxoIds : List Nat) (wait : Bool)
  | check (getTx : Except String Nat) (paymentHash : Nat)
  | cosign

/-- Execute one server operation: its effect trace. -/
def execOp (st : ServerState) : ServerOp → List ServerEffect
  | .initiate sr addr amt h ids w => (initiate_liquid_payment st sr addr amt h ids w).1
  | .check gt h => (server_check_liquid_payment st gt h).1
  | .cosign => []

/-- Run a sequence of server operations from a state, collecting the
final state and the full effect trace. -/
def runOps : ServerState → List ServerOp → ServerState × List ServerEffect
  | st, [] => (st, [])
  | st, op :: ops =>
    let tr := execOp st op
    let st1 := applyServerEffects st tr
    let (stf, rest) := runOps st1 ops
    (stf, tr ++ rest)

/-- The stored-status history for one payment hash along an effect
trace: the statuses written, in order. -/
def statusHistory (h : Nat) (tr : List ServerEffect) : List LiquidPaymentStatus :=
  tr.filterMap (fun e =>
    match e with
    | .storePayment p => if p.paymentHash = h then some p.status else none)

/-- The status partial order of the specification:
`Pending → {Sent, Failed}`, `Sent → {Confirmed, Failed}`;
`Confirmed` and `Failed` are terminal. -/
def allowedStep : LiquidPaymentStatus → LiquidPaymentStatus → Bool
  | .pending, .sent => true
  | .pending, .failed => true
  | .sent, .confirmed => true
  | .sent, .failed => true
  | _, _ => false

/-- A stored-status sequence respects the partial order, starting from
the given current status (`none` when the hash has no record yet, in
which case the first store must be `pending`). -/
def okSteps : Option LiquidPaymentStatus → List LiquidPaymentStatus → Bool
  | _, [] => true
  | none, s :: rest => s = .pending && okSteps (some s) rest
  | some c, s :: rest => allowedStep c s && okSteps (some s) rest

/-- The stored status of a hash, if a record exists. -/
def statusOf (st : ServerState) (h : Nat) : Option LiquidPaymentStatus :=
  (st.liquidPayments h).map LiquidPayment.status

/-- An operation sequence whose every `initiate` targets a hash with no
existing record at the moment it runs (at most one initiation per hash). -/
def FreshInitiates : ServerState → List ServerOp → Prop
  | _, [] => True
  | st, op :: ops =>
    (match op with
     | .initiate _ _ _ h _ _ => st.liquidPayments h = none
     | _ => True) ∧
    FreshInitiates (applyServerEffects st (execOp st op)) ops

/-! ## Concrete fixtures used by witnesses and counterexamples -/

/-- An HTLC VTXO carrying a `ServerHtlcSend` policy for user pubkey 0,
payment hash 1, HTLC expiry 100. -/
def htlcV : Vtxo :=
  { id := 7, amount := 40000,
    policy := .serverHtlcSend 0 1 100, expiryHeight := 100 }

/-- A plain spendable input VTXO. -/
def inputV : Vtxo :=
  { id := 3, amount := 100000, policy := .pubkey 5, expiryHeight := 500 }

/-- A change VTXO paying back to the user. -/
def changeV : Vtxo :=
  { id := 9, amount := 59000, policy := .pubkey 0, expiryHeight := 500 }

/-- A VTXO produced by revoking `htlcV`. -/
def revokedV : Vtxo :=
  { id := 11, amount := 40000, policy := .pubkey 0, expiryHeight := 500 }

/-- A fresh client wallet state. -/
def emptyClient : ClientState :=
  { vtxoStates := fun _ => none, liquidSends := fun _ => none,
    movements := fun _ => none, exitMarked := fun _ => false,
    nextMovementId := 0, keypairCounter := 0 }

/-- A fully cooperative environment for `pay_liquid_address` whose server
returns the `ServerHtlcSend` policy of `htlcV`. -/
def payEnvOk : PayEnv :=
  { serverConfigured := true, selected := some [inputV], cosignRpcOk := true,
    respPolicy := .serverHtlcSend 0 1 100, builderOk := true,
    cosignValid := true, buildVtxosOk := true, htlcVtxos := [htlcV],
    changeVtxo := some changeV, htlcValidateOk := true,
    changeAnchorFound := true, changeValid := true, initiateOk := true }

/-- The `LiquidSend` record produced by the `payEnvOk` run (hash 1,
amount 40000, movement 0). -/
def sendRec : LiquidSendRec :=
  { paymentHash := 1, liquidAddress := "lq1addr", amount := 40000,
    htlcVtxos := [htlcV], movementId := 0, confirmed := false,
    finished := false }

/-- A fully cooperative revocation environment producing `revokedV`. -/
def revEnvOk : RevEnv :=
  { serverConfigured := true, buildOk := true, rpcOk := true,
    cosignValid := true, buildVtxosOk := true, revokedVtxos := [revokedV] }

/-- A revocation environment whose revocation RPC fails. -/
def revEnvRpcFail : RevEnv :=
  { serverConfigured := true, buildOk := true, rpcOk := false,
    cosignValid := true, buildVtxosOk := true, revokedVtxos := [] }

/-! ## Helper lemmas -/

instance {ε α : Type} [DecidableEq ε] [DecidableEq α] : DecidableEq (Except ε α) :=
  fun a b =>
    match a, b with
    | .ok x, .ok y =>
      if h : x = y then .isTrue (congrArg Except.ok h)
      else .isFalse (fun c => h (Except.ok.inj c))
    | .error x, .error y =>
      if h : x = y then .isTrue (congrArg Except.error h)
      else .isFalse (fun c => h (Except.error.inj c))
    | .ok _, .error _ => .isFalse (fun c => Except.noConfusion c)
    | .error _, .ok _ => .isFalse (fun c => Except.noConfusion c)

/-- The revoke branch always exits with `Ok none`: revocation errors are
swallowed after the optional exit marking. -/
theorem check_revoke_branch_snd (env : CheckEnv) (payment : LiquidSendRec)
    (tip : Nat) (tr1 : List Effect) :
    (check_revoke_branch env payment tip tr1).2 = .ok none := by
  unfold check_revoke_branch
  split
  rename_i rtr rout heq
  cases rout
  all_goals first | rfl | simp [apply_ite]

/-! ## Claims -/

/-- C10.  For every execution path of the client's `check_liquid_payment`
that does not end in an error, the returned value is `Ok(None)`: the
caller never obtains a payment preimage, even on the `Complete` branch. -/
theorem check_liquid_payment_never_returns_preimage
    (env : CheckEnv) (payment : LiquidSendRec) (r : Option Nat)
    (h : (check_liquid_payment env payment).2 = .ok r) : r = none := by
  unfold check_liquid_payment at h
  repeat' split at h
  all_goals try rw [apply_ite Prod.snd] at h
  all_goals simp_all [check_revoke_branch_snd]

/-- Witness for C10: a concrete pending, unexpired payment returns
`Ok none`. -/
theorem check_liquid_payment_never_returns_preimage_witness :
    (check_liquid_payment
      { tip := 50, serverConfigured := true, checkRpcOk := true,
        serverStatus := .pending, refreshThreshold := 10, rev := revEnvOk }
      sendRec).2 = .ok none ∧
    ∀ r, (check_liquid_payment
      { tip := 50, serverConfigured := true, checkRpcOk := true,
        serverStatus := .pending, refreshThreshold := 10, rev := revEnvOk }
      sendRec).2 = .ok r → r = none := by
  constructor
  · decide
  · intro r h
    exact check_liquid_payment_never_returns_preimage _ _ r h

/-- C2.  `pay_liquid_address` fails with a dust error for every amount
below `P2TR_DUST`, fails with a duplicate-payment error when a
`LiquidSend` record already exists under the payment hash — before any
RPC (the trace is empty) — and fails with an insufficient-funds error
when VTXO selection cannot cover the amount; in the dust and duplicate
cases the resulting state equals the initial state. -/
theorem pay_liquid_address_precondition_errors
    (st : ClientState) (env : PayEnv) (addr : String) (amount paymentHash : Nat)
    (hsrv : env.serverConfigured = true) :
    (amount < P2TR_DUST →
      runPay st env addr amount paymentHash = (st, [], .error .dustAmount)) ∧
    (P2TR_DUST ≤ amount → (st.liquidSends paymentHash).isSome →
      runPay st env addr amount paymentHash = (st, [], .error .duplicatePayment)) ∧
    (P2TR_DUST ≤ amount → st.liquidSends paymentHash = none →
      env.selected = none →
      pay_liquid_address st env addr amount paymentHash =
        ([.deriveKeypair], .error .insufficientFunds)) := by
  refine ⟨?_, ?_, ?_⟩
  · intro hlt
    unfold runPay pay_liquid_address
    simp [hsrv, hlt, applyEffects]
  · intro hge hdup
    unfold runPay pay_liquid_address
    simp [hsrv, Nat.not_lt.2 hge, hdup, applyEffects]
  · intro hge hnone hsel
    unfold pay_liquid_address
    simp [hsrv, Nat.not_lt.2 hge, hnone, hsel]

/-- Witness for C2: with a configured server, a dust amount is rejected
without effects; after a successful pay of hash 1, a second pay of hash 1
is rejected with `duplicatePayment` and an empty trace; and an
environment with no covering selection yields `insufficientFunds`. -/
theorem pay_liquid_address_precondition_errors_witness :
    runPay emptyClient payEnvOk "lq1addr" 10 1 =
      (emptyClient, [], .error .dustAmount) ∧
    (∀ st : ClientState, (st.liquidSends 1).isSome →
      runPay st payEnvOk "lq1addr" 40000 1 =
        (st, [], .error .duplicatePayment)) ∧
    pay_liquid_address emptyClient { payEnvOk with selected := none }
        "lq1addr" 40000 1 = ([.deriveKeypair], .error .insufficientFunds) := by
  refine ⟨?_, ?_, ?_⟩
  · exact (pay_liquid_address_precondition_errors emptyClient payEnvOk
      "lq1addr" 10 1 (by decide)).1 (by decide)
  · intro st hdup
    exact (pay_liquid_address_precondition_errors st payEnvOk
      "lq1addr" 40000 1 (by decide)).2.1 (by decide) hdup
  · exact (pay_liquid_address_precondition_errors emptyClient
      { payEnvOk with selected := none }
      "lq1addr" 40000 1 (by decide)).2.2 (by decide) (by decide) (by decide)

/-- C3.  On a successful `pay_liquid_address` run (with a change output),
the effect trace is exactly: keypair derivation, cosign round-trip,
movement opening and update, storing the HTLC VTXOs as locked, marking
the inputs spent, storing the validated change VTXO as spendable, the
second movement update, writing the `LiquidSend` row keyed by the
payment hash, and only then the `initiate_liquid_payment` RPC — in this
order, with no reordering. -/
theorem pay_liquid_address_effect_order
    (st : ClientState) (env : PayEnv) (addr : String)
    (amount paymentHash ph he : Nat) (inputs : List Vtxo) (change : Vtxo)
    (hsrv : env.serverConfigured = true)
    (hdust : P2TR_DUST ≤ amount)
    (hdup : st.liquidSends paymentHash = none)
    (hsel : env.selected = some inputs)
    (hrpc : env.cosignRpcOk = true)
    (hpol : env.respPolicy = .serverHtlcSend st.keypairCounter ph he)
    (hbld : env.builderOk = true)
    (hcos : env.cosignValid = true)
    (hbv : env.buildVtxosOk = true)
    (hval : env.htlcValidateOk = true)
    (hch : env.changeVtxo = some change)
    (hanc : env.changeAnchorFound = true)
    (hcv : env.changeValid = true)
    (hinit : env.initiateOk = true) :
    pay_liquid_address st env addr amount paymentHash =
      ([.deriveKeypair,
        .rpcCosign,
        .newMovement st.nextMovementId,
        .updateMovement st.nextMovementId
          (some (-(sumAmounts env.htlcVtxos : Int))),
        .storeLocked (env.htlcVtxos.map Vtxo.id) st.nextMovementId,
        .markSpent (inputs.map Vtxo.id),
        .storeSpendable [change.id],
        .updateMovement st.nextMovementId none,
        .storeLiquidSend
          { paymentHash := paymentHash, liquidAddress := addr,
            amount := amount, htlcVtxos := env.htlcVtxos,
            movementId := st.nextMovementId, confirmed := false,
            finished := false },
        .rpcInitiate paymentHash], .ok ()) := by
  unfold pay_liquid_address
  simp [hsrv, Nat.not_lt.2 hdust, hdup, hsel, hrpc, hpol, hbld, hcos, hbv,
    hval, hch, hanc, hcv, hinit]

/-- Witness for C3: the concrete cooperative run produces exactly the
ordered trace. -/
theorem pay_liquid_address_effect_order_witness :
    pay_liquid_address emptyClient payEnvOk "lq1addr" 40000 1 =
      ([.deriveKeypair,
        .rpcCosign,
        .newMovement 0,
        .updateMovement 0 (some (-40000)),
        .storeLocked [7] 0,
        .markSpent [3],
        .storeSpendable [9],
        .updateMovement 0 none,
        .storeLiquidSend sendRec,
        .rpcInitiate 1], .ok ()) := by
  have h := pay_liquid_address_effect_order emptyClient payEnvOk "lq1addr"
    40000 1 1 100 [inputV] changeV rfl (by decide) rfl rfl rfl rfl rfl rfl
    rfl rfl rfl rfl rfl rfl
  simpa [payEnvOk, emptyClient, htlcV, inputV, changeV, sendRec,
    sumAmounts] using h

/-- C4.  When every step of `process_liquid_revocation` succeeds, the
movement is updated with effective balance delta `-amount + Σ revoked`,
the revoked VTXOs are stored spendable, the HTLC VTXOs are marked
spent, the movement is finalized as `Failed`, and the `LiquidSend`
row under the payment hash is deleted. -/
theorem process_liquid_revocation_success_effects
    (st : ClientState) (env : RevEnv) (payment : LiquidSendRec)
    (hsrv : env.serverConfigured = true) (hb : env.buildOk = true)
    (hrpc : env.rpcOk = true) (hcv : env.cosignValid = true)
    (hbv : env.buildVtxosOk = true)
    (hmov : (st.movements payment.movementId).isSome) :
    (runRevocation st env payment).2.2 = .ok () ∧
    ((runRevocation st env payment).1.movements payment.movementId).map
        MovementRec.effectiveDelta =
      some (some (-(payment.amount : Int) + (sumAmounts env.revokedVtxos : Int))) ∧
    ((runRevocation st env payment).1.movements payment.movementId).map
        MovementRec.status = some (some .failed) ∧
    (∀ i ∈ env.revokedVtxos.map Vtxo.id, i ∉ payment.htlcVtxos.map Vtxo.id →
      (runRevocation st env payment).1.vtxoStates i = some .spendable) ∧
    (∀ i ∈ payment.htlcVtxos.map Vtxo.id,
      (runRevocation st env payment).1.vtxoStates i = some .spent) ∧
    (runRevocation st env payment).1.liquidSends payment.paymentHash = none := by
  rcases Option.isSome_iff_exists.1 hmov with ⟨m, hm⟩
  have hrun : runRevocation st env payment =
      (applyEffects st
        [.rpcRevoke,
         .updateMovement payment.movementId
           (some (-(payment.amount : Int) + (sumAmounts env.revokedVtxos : Int))),
         .storeSpendable (env.revokedVtxos.map Vtxo.id),
         .markSpent (payment.htlcVtxos.map Vtxo.id),
         .finishMovement payment.movementId .failed,
         .removeLiquidSend payment.paymentHash],
       [.rpcRevoke,
        .updateMovement payment.movementId
          (some (-(payment.amount : Int) + (sumAmounts env.revokedVtxos : Int))),
        .storeSpendable (env.revokedVtxos.map Vtxo.id),
        .markSpent (payment.htlcVtxos.map Vtxo.id),
        .finishMovement payment.movementId .failed,
        .removeLiquidSend payment.paymentHash], .ok ()) := by
    unfold runRevocation process_liquid_revocation
    simp [hsrv, hb, hrpc, hcv, hbv]
  rw [hrun]
  refine ⟨rfl, ?_, ?_, ?_, ?_, ?_⟩
  · simp [applyEffects, applyEffect, hm]
  · simp [applyEffects, applyEffect, hm]
  · intro i him hno
    have hA : ¬ ∃ a ∈ payment.htlcVtxos, a.id = i := by
      simpa [List.mem_map] using hno
    have hB : ∃ a ∈ env.revokedVtxos, a.id = i := by
      simpa [List.mem_map] using him
    simp [applyEffects, applyEffect, hA, hB]
  · intro i him
    have hA : ∃ a ∈ payment.htlcVtxos, a.id = i := by
      simpa [List.mem_map] using him
    simp [applyEffects, applyEffect, hA]
  · simp [applyEffects, applyEffect]

/-- The wallet state right after the successful `payEnvOk` payment run:
HTLC VTXO 7 locked, input 3 spent, change 9 spendable, movement 0 open
and the `LiquidSend` row for hash 1 present. -/
def postPayClient : ClientState :=
  (runPay emptyClient payEnvOk "lq1addr" 40000 1).1

/-- Witness for C4: the concrete cooperative revocation of `sendRec`
(amount 40000, one HTLC VTXO id 7, one revoked VTXO id 11 of 40000)
produces exactly the claimed state. -/
theorem process_liquid_revocation_success_effects_witness :
    (runRevocation postPayClient revEnvOk sendRec).2.2 = .ok () ∧
    ((runRevocation postPayClient revEnvOk sendRec).1.movements 0).map
        MovementRec.effectiveDelta = some (some 0) ∧
    ((runRevocation postPayClient revEnvOk sendRec).1.movements 0).map
        MovementRec.status = some (some .failed) ∧
    (runRevocation postPayClient revEnvOk sendRec).1.vtxoStates 11 =
      some .spendable ∧
    (runRevocation postPayClient revEnvOk sendRec).1.vtxoStates 7 =
      some .spent ∧
    (runRevocation postPayClient revEnvOk sendRec).1.liquidSends 1 = none := by
  have h := process_liquid_revocation_success_effects postPayClient revEnvOk
    sendRec rfl rfl rfl rfl rfl (by decide)
  refine ⟨h.1, ?_, ?_, ?_, ?_, ?_⟩
  · simpa [revEnvOk, revokedV, sendRec, sumAmounts] using h.2.1
  · exact h.2.2.1
  · exact h.2.2.2.1 11 (by decide) (by decide)
  · exact h.2.2.2.2.1 7 (by decide)
  · exact h.2.2.2.2.2

/-- C5.  On server status `Pending`, the client's `check_liquid_payment`
enters the revocation branch exactly when the chain tip is strictly
greater than the policy's `htlc_expiry`; otherwise it performs the
status query and returns `Ok none` with the state unchanged. -/
theorem check_liquid_payment_pending_branch
    (st : ClientState) (env : CheckEnv) (payment : LiquidSendRec)
    (v0 : Vtxo) (pk ph he : Nat)
    (hhead : payment.htlcVtxos.head? = some v0)
    (hpol : v0.policy = .serverHtlcSend pk ph he)
    (hsrv : env.serverConfigured = true)
    (hrpc : env.checkRpcOk = true)
    (hst : env.serverStatus = .pending) :
    (env.tip ≤ he →
      runCheck st env payment = (st, [.rpcCheck ph], .ok none)) ∧
    (he < env.tip →
      check_liquid_payment env payment =
        check_revoke_branch env payment env.tip [.rpcCheck ph]) := by
  constructor
  · intro hle
    unfold runCheck check_liquid_payment
    simp [hhead, hpol, VtxoPolicy.asServerHtlcSend, hsrv, hrpc, hst,
      Nat.not_lt.2 hle, applyEffects, applyEffect]
  · intro hlt
    unfold check_liquid_payment
    simp [hhead, hpol, VtxoPolicy.asServerHtlcSend, hsrv, hrpc, hst, hlt]

/-- Witness for C5: with tip 50 and expiry 100 the pending payment is
left untouched; with tip 150 the revocation branch is taken. -/
theorem check_liquid_payment_pending_branch_witness :
    runCheck emptyClient
      { tip := 50, serverConfigured := true, checkRpcOk := true,
        serverStatus := .pending, refreshThreshold := 10, rev := revEnvOk }
      sendRec = (emptyClient, [.rpcCheck 1], .ok none) ∧
    check_liquid_payment
      { tip := 150, serverConfigured := true, checkRpcOk := true,
        serverStatus := .pending, refreshThreshold := 10, rev := revEnvOk }
      sendRec =
      check_revoke_branch
        { tip := 150, serverConfigured := true, checkRpcOk := true,
          serverStatus := .pending, refreshThreshold := 10, rev := revEnvOk }
        sendRec 150 [.rpcCheck 1] := by
  constructor
  · exact (check_liquid_payment_pending_branch emptyClient _ sendRec htlcV
      0 1 100 rfl rfl rfl rfl rfl).1 (by decide)
  · exact (check_liquid_payment_pending_branch emptyClient _ sendRec htlcV
      0 1 100 rfl rfl rfl rfl rfl).2 (by decide)

/-- A pay environment whose server returns a `ServerHtlcSend` policy
with payment hash 2 while the user supplies hash 1. -/
def payEnvMismatch : PayEnv :=
  { payEnvOk with
    respPolicy := .serverHtlcSend 0 2 100,
    htlcVtxos := [{ htlcV with policy := .serverHtlcSend 0 2 100 }] }

/-- A server state holding the mismatching HTLC VTXO (policy hash 2)
as spendable. -/
def srvStMismatch : ServerState :=
  { liquidPayments := fun _ => none,
    vtxos := fun i =>
      if i = 7 then
        some { vtxo := { htlcV with policy := .serverHtlcSend 0 2  100 },
               spendable := true }
      else none,
    elementsdConfigured := true }

/-- C1 (code bug).  The payment-hash equality checks are commented out in
the source, so neither side rejects a mismatch: the client's
`pay_liquid_address` succeeds and persists a `LiquidSend` row even though
the server's policy carries hash 2 against the user-supplied hash 1, and
the server's `initiate_liquid_payment` accepts HTLC VTXOs whose policy
hash 2 differs from the requested hash 1, records the payment and
forwards it — where the claim (and the spec's stated safe design)
requires an `InvalidPolicy` failure with nothing persisted. -/
theorem payment_hash_mismatch_not_rejected :
    (runPay emptyClient payEnvMismatch "lq1addr" 40000 1).2.2 = .ok () ∧
    ((runPay emptyClient payEnvMismatch "lq1addr" 40000 1).1.liquidSends 1).isSome
      = true ∧
    Except.map LiquidPaymentResult.status
      (initiate_liquid_payment srvStMismatch (.ok "tx") "lq1addr" 40000 1
        [7] true).2 = .ok .pending ∧
    ((applyServerEffects srvStMismatch
        (initiate_liquid_payment srvStMismatch (.ok "tx") "lq1addr" 40000 1
          [7] true).1).liquidPayments 1).map LiquidPayment.status =
      some .sent := by
  refine ⟨?_, ?_, ?_, ?_⟩ <;> decide

/-- A server state holding HTLC VTXO 7 (policy hash 1) as spendable,
with an Elements daemon configured and no tracked payments. -/
def srvStOk : ServerState :=
  { liquidPayments := fun _ => none,
    vtxos := fun i =>
      if i = 7 then some { vtxo := htlcV, spendable := true } else none,
    elementsdConfigured := true }

/-- C7.  The server's `initiate_liquid_payment` first records the payment
as `Pending`; on sidechain RPC success it stores the `Sent` record with
the returned txid and answers wire status `Pending`, on RPC error it
stores the `Failed` record and answers wire status `Failed`; and for
every input whatsoever, an `Ok` answer never carries status `Complete`. -/
theorem initiate_liquid_payment_status_behaviour
    (st : ServerState) (sendResult : Except String String)
    (addr : String) (amount paymentHash : Nat) (ids : List Nat) (w : Bool)
    (hvs : List ServerVtxo)
    (hel : st.elementsdConfigured = true)
    (hget : getVtxosById st ids = some hvs)
    (hchk : checkHtlcVtxos hvs = .ok ()) :
    (∀ txid, sendResult = .ok txid →
      initiate_liquid_payment st sendResult addr amount paymentHash ids w =
        ([.storePayment
            { liquidAddress := addr, amount := amount,
              paymentHash := paymentHash, htlcVtxoIds := ids,
              status := .pending, liquidTxid := none },
          .storePayment
            { liquidAddress := addr, amount := amount,
              paymentHash := paymentHash, htlcVtxoIds := ids,
              status := .sent, liquidTxid := some txid }],
         .ok { progressMessage := "Payment sent to liquid address. txid: " ++ txid,
               status := .pending, paymentHash := paymentHash })) ∧
    (∀ e, sendResult = .error e →
      initiate_liquid_payment st sendResult addr amount paymentHash ids w =
        ([.storePayment
            { liquidAddress := addr, amount := amount,
              paymentHash := paymentHash, htlcVtxoIds := ids,
              status := .pending, liquidTxid := none },
          .storePayment
            { liquidAddress := addr, amount := amount,
              paymentHash := paymentHash, htlcVtxoIds := ids,
              status := .failed, liquidTxid := none }],
         .ok { progressMessage := "Payment failed: " ++ e,
               status := .failed, paymentHash := paymentHash })) ∧
    (∀ (st2 : ServerState) (sr2 : Except String String) (a2 : String)
        (m2 h2 : Nat) (i2 : List Nat) (w2 : Bool) (res : LiquidPaymentResult),
      (initiate_liquid_payment st2 sr2 a2 m2 h2 i2 w2).2 = .ok res →
      res.status ≠ .complete) := by
  refine ⟨?_, ?_, ?_⟩
  · intro txid hsr
    subst hsr
    unfold initiate_liquid_payment
    simp [hel, hget, hchk]
  · intro e hsr
    subst hsr
    unfold initiate_liquid_payment
    simp [hel, hget, hchk]
  · intro st2 sr2 a2 m2 h2 i2 w2 res hres
    unfold initiate_liquid_payment at hres
    repeat' split at hres
    all_goals
      first
        | exact Except.noConfusion hres
        | (injection hres with hlit; subst hlit; simp)

/-- Witness for C7: the concrete server state, with a successful and a
failing sidechain RPC. -/
theorem initiate_liquid_payment_status_behaviour_witness :
    initiate_liquid_payment srvStOk (.ok "tx") "lq1addr" 40000 1 [7] true =
      ([.storePayment
          { liquidAddress := "lq1addr", amount := 40000, paymentHash := 1,
            htlcVtxoIds := [7], status := .pending, liquidTxid := none },
        .storePayment
          { liquidAddress := "lq1addr", amount := 40000, paymentHash := 1,
            htlcVtxoIds := [7], status := .sent, liquidTxid := some "tx" }],
       .ok { progressMessage := "Payment sent to liquid address. txid: tx",
             status := .pending, paymentHash := 1 }) ∧
    initiate_liquid_payment srvStOk (.error "down") "lq1addr" 40000 1 [7] true =
      ([.storePayment
          { liquidAddress := "lq1addr", amount := 40000, paymentHash := 1,
            htlcVtxoIds := [7], status := .pending, liquidTxid := none },
        .storePayment
          { liquidAddress := "lq1addr", amount := 40000, paymentHash := 1,
            htlcVtxoIds := [7], status := .failed, liquidTxid := none }],
       .ok { progressMessage := "Payment failed: down",
             status := .failed, paymentHash := 1 }) := by
  constructor
  · exact (initiate_liquid_payment_status_behaviour srvStOk (.ok "tx")
      "lq1addr" 40000 1 [7] true
      [{ vtxo := htlcV, spendable := true }] rfl (by decide) (by decide)).1
      "tx" rfl
  · exact (initiate_liquid_payment_status_behaviour srvStOk (.error "down")
      "lq1addr" 40000 1 [7] true
      [{ vtxo := htlcV, spendable := true }] rfl (by decide) (by decide)).2.1
      "down" rfl

/-- A revocation error leaves the client state untouched: every failing
path of `process_liquid_revocation` emits only RPC effects. -/
theorem process_liquid_revocation_error_no_effects
    (env : RevEnv) (p : LiquidSendRec) (e : PayErr)
    (h : (process_liquid_revocation env p).2 = .error e) (st : ClientState) :
    applyEffects st (process_liquid_revocation env p).1 = st := by
  cases hs : env.serverConfigured <;> cases hb : env.buildOk <;>
    cases hr : env.rpcOk <;> cases hc : env.cosignValid <;>
      cases hv : env.buildVtxosOk <;>
    simp_all [process_liquid_revocation, applyEffects, applyEffect]

/-- The check environment at the exact exit-threshold boundary: tip 90,
HTLC VTXO expiry 100, refresh threshold 10, server says `Failed`, and the
revocation RPC fails. -/
def envBoundary : CheckEnv :=
  { tip := 90, serverConfigured := true, checkRpcOk := true,
    serverStatus := .failed, refreshThreshold := 10, rev := revEnvRpcFail }

/-- Counterexample to C6: with tip 90, minimum HTLC VTXO expiry 100 and
refresh threshold 10, the claim's condition `tip ≥ min(expiry) − threshold`
holds (90 ≥ 90) and revocation fails, yet the code — whose guard is the
strict `tip > min_expiry.saturating_sub(threshold)` — marks nothing for
exit, performs no movement update, and leaves the state unchanged. -/
theorem check_exit_threshold_boundary_no_exit :
    minExpiry sendRec.htlcVtxos - envBoundary.refreshThreshold ≤ envBoundary.tip ∧
    (process_liquid_revocation envBoundary.rev sendRec).2 = .error .rpcError ∧
    check_liquid_payment envBoundary sendRec =
      ([.rpcCheck 1, .rpcRevoke], .ok none) ∧
    runCheck postPayClient envBoundary sendRec =
      (postPayClient, [.rpcCheck 1, .rpcRevoke], .ok none) := by
  refine ⟨by decide, by decide, by decide, ?_⟩
  have h : check_liquid_payment envBoundary sendRec =
      ([.rpcCheck 1, .rpcRevoke], .ok none) := by decide
  unfold runCheck
  rw [h]
  rfl

/-- C6 as amended.  In the client's check flow, if revocation fails and
the chain tip is *strictly* greater than the minimum expiry height of the
payment's HTLC VTXOs minus (saturating) the refresh threshold, then all
HTLC VTXOs are marked for unilateral exit, the movement is updated with
effective delta `-amount + Σ exited` and finalized as `Failed`, and the
`LiquidSend` row is not deleted. -/
theorem check_exit_branch_effects
    (st : ClientState) (env : CheckEnv) (payment : LiquidSendRec)
    (v0 : Vtxo) (pk ph he : Nat) (err : PayErr)
    (hhead : payment.htlcVtxos.head? = some v0)
    (hpol : v0.policy = .serverHtlcSend pk ph he)
    (hsrv : env.serverConfigured = true)
    (hrpc : env.checkRpcOk = true)
    (hst : env.serverStatus = .failed)
    (hrev : (process_liquid_revocation env.rev payment).2 = .error err)
    (hthr : minExpiry payment.htlcVtxos - env.refreshThreshold < env.tip)
    (hmov : (st.movements payment.movementId).isSome) :
    check_liquid_payment env payment =
      ([.rpcCheck ph] ++ (process_liquid_revocation env.rev payment).1 ++
        [.markForExit (payment.htlcVtxos.map Vtxo.id),
         .updateMovement payment.movementId
           (some (-(payment.amount : Int) + (sumAmounts payment.htlcVtxos : Int))),
         .finishMovement payment.movementId .failed], .ok none) ∧
    (∀ i ∈ payment.htlcVtxos.map Vtxo.id,
      (runCheck st env payment).1.exitMarked i = true) ∧
    ((runCheck st env payment).1.movements payment.movementId).map
        MovementRec.effectiveDelta =
      some (some (-(payment.amount : Int) + (sumAmounts payment.htlcVtxos : Int))) ∧
    ((runCheck st env payment).1.movements payment.movementId).map
        MovementRec.status = some (some .failed) ∧
    (runCheck st env payment).1.liquidSends = st.liquidSends := by
  rcases Option.isSome_iff_exists.1 hmov with ⟨m, hm⟩
  have htr : check_liquid_payment env payment =
      ([.rpcCheck ph] ++ (process_liquid_revocation env.rev payment).1 ++
        [.markForExit (payment.htlcVtxos.map Vtxo.id),
         .updateMovement payment.movementId
           (some (-(payment.amount : Int) + (sumAmounts payment.htlcVtxos : Int))),
         .finishMovement payment.movementId .failed], .ok none) := by
    unfold check_liquid_payment
    simp only [hhead, hpol, VtxoPolicy.asServerHtlcSend, hsrv, hrpc, hst]
    unfold check_revoke_branch
    rcases hP : process_liquid_revocation env.rev payment with ⟨rtr, rout⟩
    rw [hP] at hrev
    simp at hrev
    subst hrev
    simp [hthr]
  refine ⟨htr, ?_⟩
  have hres : (runCheck st env payment).1 =
      applyEffects
        (applyEffects st ([.rpcCheck ph] ++
          (process_liquid_revocation env.rev payment).1))
        [.markForExit (payment.htlcVtxos.map Vtxo.id),
         .updateMovement payment.movementId
           (some (-(payment.amount : Int) + (sumAmounts payment.htlcVtxos : Int))),
         .finishMovement payment.movementId .failed] := by
    unfold runCheck
    rw [htr]
    simp [applyEffects, List.foldl_append]
  have hmid : applyEffects st ([.rpcCheck ph] ++
      (process_liquid_revocation env.rev payment).1) = st := by
    show applyEffects (applyEffect st (.rpcCheck ph))
      (process_liquid_revocation env.rev payment).1 = st
    exact process_liquid_revocation_error_no_effects env.rev payment err hrev st
  rw [hmid] at hres
  refine ⟨?_, ?_, ?_, ?_⟩
  · intro i him
    have hB : ∃ a ∈ payment.htlcVtxos, a.id = i := by
      simpa [List.mem_map] using him
    rw [hres]
    simp [applyEffects, applyEffect, hB]
  · rw [hres]
    simp [applyEffects, applyEffect, hm]
  · rw [hres]
    simp [applyEffects, applyEffect, hm]
  · rw [hres]
    simp [applyEffects, applyEffect]

/-- Witness for the amended C6: tip 95 is strictly past the boundary 90,
so the exit branch runs on the concrete payment. -/
theorem check_exit_branch_effects_witness :
    check_liquid_payment
      { envBoundary with tip := 95 } sendRec =
      ([.rpcCheck 1, .rpcRevoke,
        .markForExit [7],
        .updateMovement 0 (some 0),
        .finishMovement 0 .failed], .ok none) ∧
    (runCheck postPayClient { envBoundary with tip := 95 } sendRec).1.exitMarked 7
      = true ∧
    (runCheck postPayClient { envBoundary with tip := 95 } sendRec).1.liquidSends
      = postPayClient.liquidSends := by
  have h := check_exit_branch_effects postPayClient
    { envBoundary with tip := 95 } sendRec htlcV 0 1 100 .rpcError
    rfl rfl rfl rfl rfl (by decide) (by decide) (by decide)
  refine ⟨?_, ?_, h.2.2.2.2⟩
  · have := h.1
    simpa [sendRec, htlcV, sumAmounts, envBoundary, revEnvRpcFail,
      process_liquid_revocation] using this
  · exact h.2.1 7 (by decide)

/-- The wallet state after the payment has been revoked: revoked VTXO 11
spendable, HTLC VTXO 7 spent, movement 0 failed and the `LiquidSend` row
for hash 1 deleted. -/
def postRevokeClient : ClientState :=
  (runRevocation postPayClient revEnvOk sendRec).1

/-- A check environment seen by a stale record after revocation: the
server still reports `Failed`, the second revocation attempt fails at the
RPC, and the tip (95) is past the exit threshold (90). -/
def envStaleCheck : CheckEnv :=
  { tip := 95, serverConfigured := true, checkRpcOk := true,
    serverStatus := .failed, refreshThreshold := 10, rev := revEnvRpcFail }

/-- Counterexample to C9.  Calling `check_liquid_payment` again with the
(already revoked) payment's record — its `LiquidSend` row is gone —
returns `Ok` but is not a no-op: the server still reports `Failed`, so
the code re-enters revocation, and when that attempt fails near expiry it
marks the already-revoked HTLC VTXOs for unilateral exit, changing the
state. -/
theorem check_after_revocation_not_noop :
    postRevokeClient.liquidSends 1 = none ∧
    (runCheck postRevokeClient envStaleCheck sendRec).2.2 = .ok none ∧
    postRevokeClient.exitMarked 7 = false ∧
    (runCheck postRevokeClient envStaleCheck sendRec).1.exitMarked 7 = true ∧
    (runCheck postRevokeClient envStaleCheck sendRec).1 ≠ postRevokeClient := by
  refine ⟨by decide, by decide, by decide, by decide, ?_⟩
  intro hcontra
  have hpt := congrFun (congrArg ClientState.exitMarked hcontra) 7
  rw [show (runCheck postRevokeClient envStaleCheck sendRec).1.exitMarked 7 = true
      from by decide,
    show postRevokeClient.exitMarked 7 = false from by decide] at hpt
  exact Bool.noConfusion hpt

/-- C9 as amended.  `check_liquid_payment` is idempotent on a payment
that has already completed: when the server answers `Complete` and the
wallet already records the `LiquidSend` row as confirmed and finished,
the HTLC VTXOs as spent and the movement as finished, a further call
returns `Ok none` and leaves the state exactly as it was.  (After a
revocation the `LiquidSend` row has been deleted, so the recovery driver
has nothing to re-run; re-invoking the routine with the stale record is
not a no-op, per the counterexample.) -/
theorem check_after_completion_noop
    (st : ClientState) (env : CheckEnv) (payment : LiquidSendRec)
    (v0 : Vtxo) (pk ph he : Nat) (r0 : LiquidSendRec) (m : MovementRec)
    (hhead : payment.htlcVtxos.head? = some v0)
    (hpol : v0.policy = .serverHtlcSend pk ph he)
    (hsrv : env.serverConfigured = true)
    (hrpc : env.checkRpcOk = true)
    (hst : env.serverStatus = .complete)
    (hrec : st.liquidSends payment.paymentHash = some r0)
    (hconf : r0.confirmed = true) (hfin : r0.finished = true)
    (hspent : ∀ i ∈ payment.htlcVtxos.map Vtxo.id, st.vtxoStates i = some .spent)
    (hmov : st.movements payment.movementId = some m)
    (hmst : m.status = some .finished) :
    runCheck st env payment =
      (st,
       [.rpcCheck ph, .finishLiquidSend payment.paymentHash,
        .markSpent (payment.htlcVtxos.map Vtxo.id),
        .finishMovement payment.movementId .finished],
       .ok none) := by
  have htr : check_liquid_payment env payment =
      ([.rpcCheck ph, .finishLiquidSend payment.paymentHash,
        .markSpent (payment.htlcVtxos.map Vtxo.id),
        .finishMovement payment.movementId .finished], .ok none) := by
    unfold check_liquid_payment
    simp [hhead, hpol, VtxoPolicy.asServerHtlcSend, hsrv, hrpc, hst]
  have h1 : applyEffect st (.finishLiquidSend payment.paymentHash) = st := by
    have hf : (fun h => if h = payment.paymentHash then
        (st.liquidSends h).map
          (fun r => { r with confirmed := true, finished := true })
        else st.liquidSends h) = st.liquidSends := by
      funext hx
      by_cases hh : hx = payment.paymentHash
      · subst hh
        rw [hrec]
        cases r0
        simp_all
      · simp [hh]
    calc applyEffect st (.finishLiquidSend payment.paymentHash)
        = { st with liquidSends := (fun h => if h = payment.paymentHash then
              (st.liquidSends h).map
                (fun r => { r with confirmed := true, finished := true })
              else st.liquidSends h) } := rfl
      _ = st := by rw [hf]
  have h2 : applyEffect st (.markSpent (payment.htlcVtxos.map Vtxo.id)) = st := by
    have hf : (fun j => if (payment.htlcVtxos.map Vtxo.id).contains j then
        some VtxoState.spent else st.vtxoStates j) = st.vtxoStates := by
      funext j
      by_cases hj : j ∈ payment.htlcVtxos.map Vtxo.id
      · simp [List.contains, hj, hspent j hj]
      · simp [List.contains, hj]
    calc applyEffect st (.markSpent (payment.htlcVtxos.map Vtxo.id))
        = { st with vtxoStates := (fun j =>
              if (payment.htlcVtxos.map Vtxo.id).contains j then
                some VtxoState.spent else st.vtxoStates j) } := rfl
      _ = st := by rw [hf]
  have h3 : applyEffect st (.finishMovement payment.movementId .finished) = st := by
    have hf : (fun j => if j = payment.movementId then
        (st.movements j).map (fun mm => { mm with status := some .finished })
        else st.movements j) = st.movements := by
      funext j
      by_cases hj : j = payment.movementId
      · subst hj
        rw [hmov]
        cases m
        simp_all
      · simp [hj]
    calc applyEffect st (.finishMovement payment.movementId .finished)
        = { st with movements := (fun j => if j = payment.movementId then
              (st.movements j).map
                (fun mm => { mm with status := some .finished })
              else st.movements j) } := rfl
      _ = st := by rw [hf]
  have hstate : applyEffects st
      [.rpcCheck ph, .finishLiquidSend payment.paymentHash,
       .markSpent (payment.htlcVtxos.map Vtxo.id),
       .finishMovement payment.movementId .finished] = st := by
    show applyEffect (applyEffect (applyEffect (applyEffect st (.rpcCheck ph))
      (.finishLiquidSend payment.paymentHash))
      (.markSpent (payment.htlcVtxos.map Vtxo.id)))
      (.finishMovement payment.movementId .finished) = st
    rw [show applyEffect st (.rpcCheck ph) = st from rfl, h1, h2, h3]
  unfold runCheck
  rw [htr]
  show (applyEffects st
      [.rpcCheck ph, .finishLiquidSend payment.paymentHash,
       .markSpent (payment.htlcVtxos.map Vtxo.id),
       .finishMovement payment.movementId .finished],
    ([.rpcCheck ph, .finishLiquidSend payment.paymentHash,
      .markSpent (payment.htlcVtxos.map Vtxo.id),
      .finishMovement payment.movementId .finished] : List Effect),
    (Except.ok none : Except PayErr (Option Nat))) = _
  rw [hstate]

/-- The last status of a stored-status sequence, falling back to the
initial one. -/
def lastStatus (c : Option LiquidPaymentStatus) :
    List LiquidPaymentStatus → Option LiquidPaymentStatus
  | [] => c
  | s :: rest => lastStatus (some s) rest

/-- A server state whose map keys agree with the records' payment hashes.
Every store goes through `store_liquid_payment`, which keys the record by
its own hash, so this invariant is preserved. -/
def WellKeyed (st : ServerState) : Prop :=
  ∀ k p, st.liquidPayments k = some p → p.paymentHash = k

/-- `okSteps` splits over an appended history. -/
theorem okSteps_append (c : Option LiquidPaymentStatus)
    (l1 l2 : List LiquidPaymentStatus) :
    okSteps c (l1 ++ l2) = (okSteps c l1 && okSteps (lastStatus c l1) l2) := by
  induction l1 generalizing c with
  | nil => cases c <;> simp [okSteps, lastStatus]
  | cons s t ih => cases c <;> simp [okSteps, lastStatus, ih, Bool.and_assoc]

/-- `statusHistory` splits over an appended trace. -/
theorem statusHistory_append (h : Nat) (t1 t2 : List ServerEffect) :
    statusHistory h (t1 ++ t2) = statusHistory h t1 ++ statusHistory h t2 := by
  simp [statusHistory, List.filterMap_append]

/-- Applying server effects preserves well-keyedness. -/
theorem wellKeyed_apply (st : ServerState) (tr : List ServerEffect)
    (hwk : WellKeyed st) : WellKeyed (applyServerEffects st tr) := by
  induction tr generalizing st with
  | nil => exact hwk
  | cons e rest ih =>
    apply ih
    cases e with
    | storePayment p =>
      intro k q hq
      simp only [applyServerEffect] at hq
      by_cases hk : k = p.paymentHash
      · rw [if_pos hk] at hq
        injection hq with hpq
        rw [← hpq]
        exact hk.symm
      · rw [if_neg hk] at hq
        exact hwk k q hq

/-- Unfolding of `runOps` over a first operation. -/
theorem runOps_cons (st : ServerState) (op : ServerOp) (ops : List ServerOp) :
    runOps st (op :: ops) =
      ((runOps (applyServerEffects st (execOp st op)) ops).1,
       execOp st op ++ (runOps (applyServerEffects st (execOp st op)) ops).2) := by
  simp [runOps]

/-- Per-operation invariant: a single server operation writes a status
history that respects the partial order from the current stored status —
provided an `initiate` only targets a hash with no existing record — and
the new stored status is the last written one. -/
theorem execOp_okSteps (st : ServerState) (op : ServerOp) (h : Nat)
    (hwk : WellKeyed st)
    (hfresh : match op with
      | .initiate _ _ _ hh _ _ => st.liquidPayments hh = none
      | _ => True) :
    okSteps (statusOf st h) (statusHistory h (execOp st op)) = true ∧
    statusOf (applyServerEffects st (execOp st op)) h =
      lastStatus (statusOf st h) (statusHistory h (execOp st op)) := by
  cases op with
  | cosign =>
    constructor
    · cases hst : statusOf st h <;> simp [execOp, statusHistory, okSteps]
    · simp [execOp, statusHistory, applyServerEffects, lastStatus]
  | initiate sr addr amt hh ids w =>
    simp only [execOp]
    unfold initiate_liquid_payment
    by_cases hel : st.elementsdConfigured
    · rcases hg : getVtxosById st ids with _ | hvs
      · constructor
        · cases hst : statusOf st h <;> simp [hel, hg, statusHistory, okSteps]
        · simp [hel, hg, statusHistory, applyServerEffects, lastStatus]
      · rcases hc : checkHtlcVtxos hvs with e | u
        · constructor
          · cases hst : statusOf st h <;>
              simp [hel, hg, hc, statusHistory, okSteps]
          · simp [hel, hg, hc, statusHistory, applyServerEffects, lastStatus]
        · cases u
          simp only at hfresh
          cases sr with
          | ok txid =>
            by_cases hhh : hh = h
            · subst hhh
              have hnone : statusOf st hh = none := by simp [statusOf, hfresh]
              constructor
              · simp [hel, hg, hc, hnone, statusHistory, okSteps, allowedStep]
              · simp [hel, hg, hc, hnone, statusHistory, applyServerEffects,
                  applyServerEffect, statusOf, lastStatus]
            · constructor
              · cases hst : statusOf st h <;>
                  simp [hel, hg, hc, statusHistory, hhh, okSteps]
              · simp [hel, hg, hc, statusHistory, hhh, applyServerEffects,
                  applyServerEffect, statusOf, lastStatus,
                  (Ne.symm hhh : ¬ h = hh)]
          | error e =>
            by_cases hhh : hh = h
            · subst hhh
              have hnone : statusOf st hh = none := by simp [statusOf, hfresh]
              constructor
              · simp [hel, hg, hc, hnone, statusHistory, okSteps, allowedStep]
              · simp [hel, hg, hc, hnone, statusHistory, applyServerEffects,
                  applyServerEffect, statusOf, lastStatus]
            · constructor
              · cases hst : statusOf st h <;>
                  simp [hel, hg, hc, statusHistory, hhh, okSteps]
              · simp [hel, hg, hc, statusHistory, hhh, applyServerEffects,
                  applyServerEffect, statusOf, lastStatus,
                  (Ne.symm hhh : ¬ h = hh)]
    · constructor
      · cases hst : statusOf st h <;> simp [hel, statusHistory, okSteps]
      · simp [hel, statusHistory, applyServerEffects, lastStatus]
  | check gt hh =>
    simp only [execOp]
    unfold server_check_liquid_payment
    rcases hp : st.liquidPayments hh with _ | payment
    · constructor
      · cases hst : statusOf st h <;> simp [hp, statusHistory, okSteps]
      · simp [hp, statusHistory, applyServerEffects, lastStatus]
    · have hkey : payment.paymentHash = hh := hwk hh payment hp
      cases hs : payment.status
      case pending | confirmed | failed =>
        constructor
        · cases hst : statusOf st h <;>
            simp [hp, hs, statusHistory, okSteps]
        · simp [hp, hs, statusHistory, applyServerEffects, lastStatus]
      case sent =>
        by_cases hel : st.elementsdConfigured
        · rcases htx : payment.liquidTxid with _ | txid
          · constructor
            · cases hst : statusOf st h <;>
                simp [hp, hs, hel, htx, statusHistory, okSteps]
            · simp [hp, hs, hel, htx, statusHistory, applyServerEffects,
                lastStatus]
          · cases gt with
            | error e =>
              constructor
              · cases hst : statusOf st h <;>
                  simp [hp, hs, hel, htx, statusHistory, okSteps]
              · simp [hp, hs, hel, htx, statusHistory, applyServerEffects,
                  lastStatus]
            | ok confs =>
              by_cases hcf : confs ≥ 1
              · by_cases hhh : hh = h
                · subst hhh
                  have hcur : statusOf st hh = some .sent := by
                    simp [statusOf, hp, hs]
                  constructor
                  · simp [hp, hs, hel, htx, hcf, hcur, statusHistory, hkey,
                      okSteps, allowedStep]
                  · simp [hp, hs, hel, htx, hcf, hcur, statusHistory, hkey,
                      applyServerEffects, applyServerEffect, statusOf,
                      lastStatus]
                · have hkh : ¬ payment.paymentHash = h := by
                    rw [hkey]; exact hhh
                  have hkh2 : ¬ h = payment.paymentHash :=
                    fun hcon => hkh hcon.symm
                  constructor
                  · cases hst : statusOf st h <;>
                      simp [hp, hs, hel, htx, hcf, statusHistory, hkh, okSteps]
                  · simp [hp, hs, hel, htx, hcf, statusHistory, hkh, hkh2,
                      applyServerEffects, applyServerEffect, statusOf,
                      lastStatus]
              · constructor
                · cases hst : statusOf st h <;>
                    simp [hp, hs, hel, htx, hcf, statusHistory, okSteps]
                · simp [hp, hs, hel, htx, hcf, statusHistory,
                    applyServerEffects, lastStatus]
        · constructor
          · cases hst : statusOf st h <;>
              simp [hp, hs, hel, statusHistory, okSteps]
          · simp [hp, hs, hel, statusHistory, applyServerEffects, lastStatus]

/-- Counterexample to C8: `initiate_liquid_payment` never checks for an
existing record under the payment hash, so re-initiating the same hash
overwrites a terminal status: after a failed initiation the stored status
is `Failed` (terminal), yet a second initiation resets it to `Pending`
and then `Sent`, and the stored-status history contains the forbidden
step `Failed → Pending`. -/
theorem server_status_terminality_violated :
    statusOf (runOps srvStOk
      [.initiate (.error "down") "lq1addr" 40000 1 [7] true]).1 1 =
      some .failed ∧
    statusOf (runOps srvStOk
      [.initiate (.error "down") "lq1addr" 40000 1 [7] true,
       .initiate (.ok "tx") "lq1addr" 40000 1 [7] true]).1 1 = some .sent ∧
    statusHistory 1 (runOps srvStOk
      [.initiate (.error "down") "lq1addr" 40000 1 [7] true,
       .initiate (.ok "tx") "lq1addr" 40000 1 [7] true]).2 =
      [.pending, .failed, .pending, .sent] ∧
    allowedStep .failed .pending = false ∧
    okSteps (statusOf srvStOk 1)
      (statusHistory 1 (runOps srvStOk
        [.initiate (.error "down") "lq1addr" 40000 1 [7] true,
         .initiate (.ok "tx") "lq1addr" 40000 1 [7] true]).2) = false := by
  refine ⟨?_, ?_, ?_, ?_, ?_⟩ <;> decide

/-- C8 as amended.  Provided `initiate_liquid_payment` is only ever
invoked for a payment hash with no existing record (at most one
initiation per hash), then across any sequence of server operations
(cosign, initiate, check) the stored status history of every payment
hash follows the partial order `Pending → {Sent, Failed}`,
`Sent → {Confirmed, Failed}`, with `Confirmed` and `Failed` terminal:
the first stored status is `Pending` and every subsequent store is an
allowed step from the previous one. -/
theorem server_status_partial_order
    (st : ServerState) (ops : List ServerOp) (h : Nat)
    (hwk : WellKeyed st) (hfresh : FreshInitiates st ops) :
    okSteps (statusOf st h) (statusHistory h (runOps st ops).2) = true := by
  induction ops generalizing st with
  | nil =>
    cases hst : statusOf st h <;> simp [runOps, statusHistory, okSteps]
  | cons op rest ih =>
    obtain ⟨hop, hrest⟩ := hfresh
    have hstep := execOp_okSteps st op h hwk hop
    rw [runOps_cons]
    show okSteps (statusOf st h)
      (statusHistory h (execOp st op ++
        (runOps (applyServerEffects st (execOp st op)) rest).2)) = true
    rw [statusHistory_append, okSteps_append, hstep.1, ← hstep.2,
      ih (applyServerEffects st (execOp st op)) (wellKeyed_apply st _ hwk)
        hrest]
    rfl

/-- Witness for the amended C8: a fresh successful initiation followed by
a confirming check writes the history `[pending, sent, confirmed]`, which
the theorem certifies to respect the partial order. -/
theorem server_status_partial_order_witness :
    okSteps (statusOf srvStOk 1)
      (statusHistory 1 (runOps srvStOk
        [.initiate (.ok "tx") "lq1addr" 40000 1 [7] true,
         .check (.ok 3) 1]).2) = true ∧
    statusHistory 1 (runOps srvStOk
        [.initiate (.ok "tx") "lq1addr" 40000 1 [7] true,
         .check (.ok 3) 1]).2 = [.pending, .sent, .confirmed] := by
  constructor
  · exact server_status_partial_order srvStOk
      [.initiate (.ok "tx") "lq1addr" 40000 1 [7] true, .check (.ok 3) 1] 1
      (fun k p hp => by simp [srvStOk] at hp)
      ⟨rfl, trivial, trivial⟩
  · decide

/-- The check environment whose server answers `Complete`. -/
def envComplete : CheckEnv :=
  { tip := 50, serverConfigured := true, checkRpcOk := true,
    serverStatus := .complete, refreshThreshold := 10, rev := revEnvOk }

/-- The wallet state after the payment has completed once. -/
def postCompleteClient : ClientState :=
  (runCheck postPayClient envComplete sendRec).1

/-- Witness for the amended C9: re-checking the concrete completed
payment leaves the state identical and returns `Ok none`. -/
theorem check_after_completion_noop_witness :
    runCheck postCompleteClient envComplete sendRec =
      (postCompleteClient,
       [.rpcCheck 1, .finishLiquidSend 1, .markSpent [7],
        .finishMovement 0 .finished],
       .ok none) := by
  exact check_after_completion_noop postCompleteClient envComplete sendRec
    htlcV 0 1 100 { sendRec with confirmed := true, finished := true }
    { effectiveDelta := some (-40000), status := some .finished }
    rfl rfl rfl rfl rfl (by decide) rfl rfl
    (by decide) (by decide) rfl

end Bark
